import Mathlib

/-
  Verification development for the RESTree library (src/RESTree.js).

  The definitions below are a shallow embedding of the JavaScript source:
  each `def` carries a comment naming the source function it embeds.
  JavaScript machine details that matter here (falsiness, the global
  placeholder regex, `hasOwnProperty`, `Object.create`-based branch objects,
  property-table own keys, `keys.shift()` looping) are modelled explicitly.
  External collaborators (the XHR transport, the JSON codec, URI encoding)
  are modelled per their standard semantics where the claims depend on them.
-/

set_option autoImplicit false

namespace RESTree

/-! ## JavaScript values and errors -/

/-- A fragment of the JavaScript value universe sufficient for the library:
`undefined`, `null`, booleans, (integer) numbers, strings and plain objects
given as insertion-ordered key/value lists. -/
inductive JsValue where
  | undefined
  | null
  | bool (b : Bool)
  | num (n : Int)
  | str (s : String)
  | obj (fields : List (String × JsValue))
  deriving Repr

/-- JavaScript falsiness (`!data`): `undefined`, `null`, `false`, `0` and the
empty string are falsy; objects are always truthy.  (`NaN` is outside the
integer-number model.) -/
def falsy : JsValue → Bool
  | .undefined => true
  | .null => true
  | .bool b => !b
  | .num n => n == 0
  | .str s => s == ""
  | .obj _ => false

/-- JavaScript string conversion as used implicitly by string concatenation
and `String.prototype.replace`: integers print in decimal, plain objects
print as "[object Object]". -/
def jsToString : JsValue → String
  | .undefined => "undefined"
  | .null => "null"
  | .bool b => if b then "true" else "false"
  | .num n => toString n
  | .str s => s
  | .obj _ => "[object Object]"

/-- Exceptions thrown by the library code: `error` is a thrown
`new Error(msg)` (the only kind the library constructs itself, e.g. the
missing-parameter and duplicate-name errors); `typeError` is a TypeError
raised by the runtime (property access on `null`/`undefined`);
`referenceError` is a ReferenceError for an unbound identifier. -/
inductive JsError where
  | error (msg : String)
  | typeError
  | referenceError (msg : String)
  deriving Repr, DecidableEq

/-- The ASCII apostrophe, used verbatim inside the library error messages. -/
def apos : String := String.singleton (Char.ofNat 39)

/-- Message of the error thrown by `Node.prototype.localLocation` when a
parameter is missing from the supplied data object (RESTree.js line 197). -/
def missingPropMsg (param loc : String) : String :=
  "Missing property " ++ apos ++ param ++ apos ++ " on " ++ apos ++ loc ++ apos ++ "."

/-- Message of the error thrown by `Node.prototype.add` for a name already
present on the node object (RESTree.js line 75). -/
def dupNameMsg (name loc : String) : String :=
  "The given name " ++ apos ++ name ++ apos ++ " is already registered on node " ++ apos ++ loc ++ apos

/-! ## The placeholder pattern

`Node.prototype.paramRegex` (RESTree.js line 65) is the global regex
matching a placeholder: an opening brace, a letter, then letters, digits or
underscores, then a closing brace, capturing the identifier.  We embed the
two uses of this regex: scanning a template for all matches in order
(`extractParams`, the `exec` loop) and replacing every match with one
replacement string (`replaceAllParams`, the `String.replace` call with the
global flag). -/

/-- First character class of a placeholder identifier. -/
def isAlphaCh (c : Char) : Bool :=
  (('a' ≤ c) && (c ≤ 'z')) || (('A' ≤ c) && (c ≤ 'Z'))

/-- Digit test for the identifier tail. -/
def isDigitCh (c : Char) : Bool := ('0' ≤ c) && (c ≤ '9')

/-- Continuation character class of a placeholder identifier. -/
def isIdentCh (c : Char) : Bool := isAlphaCh c || isDigitCh c || (c == '_')

/-- State of the left-to-right scan for placeholder matches: outside any
candidate match, just after an opening brace, or inside the identifier with
the accumulated characters in reverse. -/
inductive ScanState where
  | outside
  | afterBrace
  | ident (acc : List Char)

/-- One-pass scan emitting each placeholder identifier in match order.
This is equivalent to repeatedly taking the leftmost regex match and
resuming after it: on a failed candidate the scan resumes at the failing
character (which is the only place a new match could start, since the
characters consumed by a failed candidate other than its final one cannot
contain an opening brace). -/
def scanAux : ScanState → List Char → List String
  | _, [] => []
  | .outside, c :: cs => scanAux (if c == '{' then .afterBrace else .outside) cs
  | .afterBrace, c :: cs =>
    if isAlphaCh c then scanAux (.ident [c]) cs
    else scanAux (if c == '{' then .afterBrace else .outside) cs
  | .ident acc, c :: cs =>
    if c == '}' then String.mk acc.reverse :: scanAux .outside cs
    else if isIdentCh c then scanAux (.ident (c :: acc)) cs
    else scanAux (if c == '{' then .afterBrace else .outside) cs

/-- `Node.prototype.extractParams` (RESTree.js lines 169-174): the list of
placeholder identifiers of a location template, in order of occurrence,
not deduplicated. -/
def extractParams (location : String) : List String :=
  scanAux .outside location.data

/-- One-pass global replacement: every placeholder match is replaced by
`repl`, all other characters are kept.  When a candidate match fails, the
consumed characters (the opening brace and the identifier prefix) are
emitted unchanged and the scan resumes at the failing character.  Embeds
`location.replace(paramRegex, repl)` for replacement strings that contain
no dollar sign (true of every value this development substitutes). -/
def replAux (repl : String) : ScanState → List Char → String
  | .outside, [] => ""
  | .afterBrace, [] => "\x7b"
  | .ident acc, [] => "\x7b" ++ String.mk acc.reverse
  | .outside, c :: cs =>
    if c == '{' then replAux repl .afterBrace cs
    else String.singleton c ++ replAux repl .outside cs
  | .afterBrace, c :: cs =>
    if isAlphaCh c then replAux repl (.ident [c]) cs
    else if c == '{' then "\x7b" ++ replAux repl .afterBrace cs
    else "\x7b" ++ String.singleton c ++ replAux repl .outside cs
  | .ident acc, c :: cs =>
    if c == '}' then repl ++ replAux repl .outside cs
    else if isIdentCh c then replAux repl (.ident (c :: acc)) cs
    else if c == '{' then "\x7b" ++ String.mk acc.reverse ++ replAux repl .afterBrace cs
    else "\x7b" ++ String.mk acc.reverse ++ String.singleton c ++ replAux repl .outside cs

/-- Global substitution of every placeholder occurrence (of any name) by
one replacement string: `location.replace(this.paramRegex, repl)` as used
on RESTree.js line 199. -/
def replaceAllParams (location : String) (repl : String) : String :=
  replAux repl .outside location.data

/-! ## Argument objects and `localLocation` -/

/-- A JavaScript object used as an argument mapping, as an
insertion-ordered key/value list (object literals have distinct keys). -/
abbrev ArgsObj := List (String × JsValue)

/-- `Object.prototype.hasOwnProperty` for an argument object. -/
def hasOwnProp (obj : ArgsObj) (k : String) : Bool :=
  obj.any (fun p => p.1 == k)

/-- Property read `obj[k]` on an argument object: the first binding of the
key, or `undefined` when absent. -/
def objGet (obj : ArgsObj) (k : String) : JsValue :=
  (obj.lookup k).getD .undefined

/-- Loop body of `Node.prototype.localLocation` (RESTree.js lines 186-200):
for each recorded parameter in order, a `hasOwnProperty` check on the data
object (a TypeError if the data object is `null`/`undefined`), then a
global replacement of every placeholder occurrence by that parameter's
stringified value.  `origLoc` is `this.location`, used in the error
message, which does not change across iterations. -/
def localLocationGo (origLoc : String) (data : Option ArgsObj) :
    String → List String → Except JsError String
  | loc, [] => .ok loc
  | loc, p :: ps =>
    match data with
    | none => .error .typeError
    | some obj =>
      if hasOwnProp obj p then
        localLocationGo origLoc data (replaceAllParams loc (jsToString (objGet obj p))) ps
      else
        .error (.error (missingPropMsg p origLoc))

/-- `Node.prototype.localLocation` (RESTree.js lines 181-203), as a function
of the node's location template, its extracted parameter list, and the data
object (`none` models `null`/`undefined` arguments). -/
def localLocation (location : String) (params : List String) (data : Option ArgsObj) :
    Except JsError String :=
  localLocationGo location data location params

/-! ## Pipelines and configuration nodes -/

/-- An HTTP method name accepted by the library; `Node.prototype.pipe`
rejects any other method string with a configuration error, so the
embedding fixes the four valid names. -/
inductive Method where
  | get
  | post
  | put
  | delete
  deriving Repr, DecidableEq

/-- A pipeline direction; the source stores these under the string keys
of the per-method pipes object.  `inn` embeds the source's field named
after the keyword for incoming data, `out` the outgoing one.  Unknown
direction strings are likewise rejected by `pipe` with a configuration
error. -/
inductive Line where
  | inn
  | out

/-- The two pipelines of one method (`{ out: [], in: [] }`,
RESTree.js lines 40-57). -/
structure LinePipes where
  out : List (JsValue → JsValue)
  inn : List (JsValue → JsValue)

/-- The per-method pipeline table created by the `Node` constructor. -/
structure Pipes where
  get : LinePipes
  post : LinePipes
  put : LinePipes
  delete : LinePipes

/-- The pipeline table as initialised by the `Node` constructor:
every pipeline empty. -/
def emptyPipes : Pipes :=
  { get := ⟨[], []⟩, post := ⟨[], []⟩, put := ⟨[], []⟩, delete := ⟨[], []⟩ }

/-- Reading `this.pipes[method]`. -/
def Pipes.line (p : Pipes) : Method → LinePipes
  | .get => p.get
  | .post => p.post
  | .put => p.put
  | .delete => p.delete

/-- Reading `this.pipes[method][line]`. -/
def LinePipes.dir (lp : LinePipes) : Line → List (JsValue → JsValue)
  | .inn => lp.inn
  | .out => lp.out

/-- Updating one method's pipelines inside the table. -/
def Pipes.update (p : Pipes) (m : Method) (f : LinePipes → LinePipes) : Pipes :=
  match m with
  | .get => { p with get := f p.get }
  | .post => { p with post := f p.post }
  | .put => { p with put := f p.put }
  | .delete => { p with delete := f p.delete }

/-- A configuration `Node`'s semantic fields (RESTree.js lines 33-60):
location template, the parameters extracted from it at construction time,
the default headers, and the pipeline table.  (`parent` and the child
registry are modelled by the tree and property-table structures below.) -/
structure CNode where
  location : String
  params : List String
  headers : List (String × String)
  pipes : Pipes

/-- The `Node` constructor's initialisation of these fields: empty headers
and pipelines, parameters extracted from the location. -/
def mkCNode (location : String) : CNode :=
  { location := location
    params := extractParams location
    headers := []
    pipes := emptyPipes }

/-- `Node.prototype.header` (RESTree.js lines 162-164): JavaScript object
assignment `this.headers[key] = value` — overwrite in place if the key
exists, else append. -/
def nodeHeader (nd : CNode) (key value : String) : CNode :=
  { nd with headers :=
      if nd.headers.any (fun p => p.1 == key) then
        nd.headers.map (fun p => if p.1 == key then (p.1, value) else p)
      else nd.headers ++ [(key, value)] }

/-- `Node.prototype.pipe` (RESTree.js lines 92-101) restricted to the
accepted method and direction names: pushes the given functions, in order,
onto the selected pipeline. -/
def nodePipe (nd : CNode) (m : Method) (l : Line) (fs : List (JsValue → JsValue)) : CNode :=
  { nd with pipes := nd.pipes.update m (fun lp =>
      match l with
      | .inn => { lp with inn := lp.inn ++ fs }
      | .out => { lp with out := lp.out ++ fs }) }

/-- Reading a node's pipeline for a method and direction. -/
def pipesLine (nd : CNode) (m : Method) (l : Line) : List (JsValue → JsValue) :=
  (nd.pipes.line m).dir l

/-- `executePipes` (RESTree.js lines 415-423): a falsy input short-circuits
to `undefined` without touching the pipeline; otherwise the functions are
applied left to right, each consuming the previous output. -/
def executePipes (pipes : List (JsValue → JsValue)) (data : JsValue) : JsValue :=
  if falsy data then .undefined
  else pipes.foldl (fun d f => f d) data

/-- The observable outcome of `handleResponse`: which callback was invoked,
with which status and data (or no invocation when the relevant callback
was not supplied). -/
inductive HandleResult where
  | successCall (status : Nat) (data : JsValue)
  | failCall (status : Nat) (data : JsValue)
  | noCall

/-- `handleResponse` (RESTree.js lines 394-407), as a function of the
node, the method, the JSON-parsed response body (parsing is delegated to
the external JSON codec), the status code, and whether a success/failure
callback was supplied: a 2xx status runs the incoming pipeline and invokes
the success callback; any other status invokes the failure callback on the
raw parsed data. -/
def handleResponse (nd : CNode) (m : Method) (data : JsValue) (status : Nat)
    (hasSuccess hasFail : Bool) : HandleResult :=
  if 200 ≤ status ∧ status < 300 then
    let d := executePipes (pipesLine nd m .inn) data
    if hasSuccess then .successCall status d else .noCall
  else
    if hasFail then .failCall status data else .noCall

/-! ## Header loading -/

/-- `loadHeaders` (RESTree.js lines 139-154) as the ordered sequence of
`xhr.setRequestHeader(key, value)` calls it performs: the node ancestry is
collected leaf-to-root by the `parent` walk, reversed to root-first by the
`unshift` loop, and each node's headers are then set in key order. -/
def loadHeaders (ancestry : List CNode) : List (String × String) :=
  ((ancestry.reverse).map (fun n => n.headers)).flatten

/-- The transport's `setRequestHeader`, for a transport that keeps one
value per header name with the last set value winning (the override
reading the specification assigns to the transport; the claim about header
inheritance is stated against this transport model). -/
def xhrSetHeader (hs : List (String × String)) (k v : String) : List (String × String) :=
  hs.filter (fun p => p.1 != k) ++ [(k, v)]

/-- Applying a sequence of `setRequestHeader` calls to the transport. -/
def xhrLoad (hs : List (String × String)) (calls : List (String × String)) :
    List (String × String) :=
  calls.foldl (fun a p => xhrSetHeader a p.1 p.2) hs

/-- The full header-call sequence of `ExecNode.prototype.request`
(RESTree.js lines 383-384): the JSON content type first, then
`loadHeaders` over the node's ancestry. -/
def requestHeaderCalls (ancestry : List CNode) : List (String × String) :=
  ("Content-type", "application/json") :: loadHeaders ancestry

/-- No binding in the list carries the given key. -/
def keyFree (hs : List (String × String)) (k : String) : Prop :=
  ∀ p ∈ hs, p.1 ≠ k

/-! ## The node object's own-property table -/

/-- The JavaScript object underlying a configuration `Node`, viewed as its
own-property table: the constructor (RESTree.js lines 33-60) creates
exactly the own properties `location`, `parent`, `nodes`, `params`,
`headers` and `pipes` (the prototype methods are not own properties), and
`Node.prototype.add` adds one own property per registered child name. -/
structure NodeObj where
  location : String
  ownKeys : List String
  children : List String

/-- The own-property names assigned by the `Node` constructor. -/
def ctorKeys : List String :=
  ["location", "parent", "nodes", "params", "headers", "pipes"]

/-- The `Node` constructor's own-property table. -/
def mkNodeObj (location : String) : NodeObj :=
  { location := location, ownKeys := ctorKeys, children := [] }

/-- `Node.prototype.add` (RESTree.js lines 73-83) at the property-table
level: `this.hasOwnProperty(name)` guards against any existing own
property; on success the child becomes a new own property and its name is
pushed onto `this.nodes`. -/
def NodeObj.add (n : NodeObj) (name : String) : Except JsError NodeObj :=
  if name ∈ n.ownKeys then
    .error (.error (dupNameMsg name n.location))
  else
    .ok { n with ownKeys := n.ownKeys ++ [name], children := n.children ++ [name] }

/-! ## The compiled tree and branch objects

`Node.prototype.compile` (RESTree.js lines 209-267) creates exactly one
`ExecNode` per configuration node, wiring `parent[name] = exec` for every
child name, so the compiled tree mirrors the configuration tree one to
one; the traversal order is immaterial to the result.  The embedding
therefore represents the compiled tree directly as the configuration tree.
Branch objects (`ExecNode.prototype.branch`, lines 286-321) are mutable:
`Object.create` allocates a fresh object per access and the caller
function assigns `this.args` on it.  The embedding gives them an explicit
heap: a list of branch records addressed by allocation index. -/

/-- A configuration (and, after compile, execution) tree: a node plus its
named children in registration order. -/
inductive CTree where
  | mk : CNode → List (String × CTree) → CTree

/-- The node of a tree root. -/
def CTree.cfg : CTree → CNode
  | .mk c _ => c

/-- The named children of a tree root. -/
def CTree.children : CTree → List (String × CTree)
  | .mk _ cs => cs

/-- Child lookup by name, as installed on the `ExecNode` by compile
(`parent[name] = exec`); names are unique by `Node.prototype.add`. -/
def lookupChild (t : CTree) (name : String) : Option CTree :=
  t.children.lookup name

/-- One branch object: the `ExecNode` (tree position) it was created from,
the `last` pointer to the branch it was reached from (a heap index), and
its `args` (`none` models both the initial `null` and an `undefined`
argument to the caller). -/
structure BranchObj where
  tree : CTree
  last : Option Nat
  args : Option ArgsObj

/-- The mutable execution state: the immutable compiled tree and the heap
of branch objects allocated so far (index = allocation order, so a
branch's `last` always points below its own index). -/
structure ExecState where
  tree : CTree
  branches : List BranchObj

/-- The state returned by `compile` (RESTree.js line 266,
`root.branch(null)`): the root branch allocated with no predecessor and
null args. -/
def compileInit (t : CTree) : ExecState :=
  { tree := t, branches := [⟨t, none, none⟩] }

/-- Reading a named child on a branch object (`lazyFetch`, RESTree.js
lines 328-332): `this.__proto__[name].branch(this)` allocates a fresh
branch of the child `ExecNode` with `last` set to the current branch.
Returns the new branch's index and the extended state, or `none` when the
child name is not declared. -/
def childAccess (σ : ExecState) (bid : Nat) (name : String) : Option (Nat × ExecState) :=
  match σ.branches[bid]? with
  | none => none
  | some b =>
    match lookupChild b.tree name with
    | none => none
    | some ct =>
      some (σ.branches.length,
            { σ with branches := σ.branches ++ [⟨ct, some bid, none⟩] })

/-- Invoking a branch's caller (RESTree.js lines 294-298):
`this.args = args; return this` — mutates only that branch's `args` slot.
Passing `none` models a call with no argument (`args` = `undefined`). -/
def callBranch (σ : ExecState) (bid : Nat) (args : Option ArgsObj) : ExecState :=
  match σ.branches[bid]? with
  | none => σ
  | some b => { σ with branches := σ.branches.set bid { b with args := args } }

/-- Continuation of the chain walk through a `last` pointer: stop at the
root (`none`), otherwise recurse into the strictly smaller index (branch
allocation order guarantees the pointer is below the current index). -/
def chainNext (rec : Nat → List (CTree × Option ArgsObj)) (bid : Nat) :
    Option Nat → List (CTree × Option ArgsObj)
  | none => []
  | some j => if j < bid then rec j else []

/-- Fueled walk of the `last` chain of a branch, collecting each visited
branch's tree position and args, leaf first.  A branch's `last` index is
always strictly below its own (allocation order), which the walk checks;
fuel `bid + 1` therefore always suffices. -/
def chainGo (σ : ExecState) : Nat → Nat → List (CTree × Option ArgsObj)
  | 0, _ => []
  | fuel + 1, bid =>
    match σ.branches[bid]? with
    | none => []
    | some b => (b.tree, b.args) :: chainNext (chainGo σ fuel) bid b.last

/-- The `last` chain of a branch, leaf first (the traversal of
`ExecNode.prototype.mount`, RESTree.js lines 342-345). -/
def chain (σ : ExecState) (bid : Nat) : List (CTree × Option ArgsObj) :=
  chainGo σ (bid + 1) bid

/-- `localLocation` applied to one chain element. -/
def localLoc (p : CTree × Option ArgsObj) : Except JsError String :=
  localLocation p.1.cfg.location p.1.cfg.params p.2

/-- The ancestor loop of `mount`: each iteration resolves the current
ancestor's local location and prepends it with a slash. -/
def mountRest (url : String) : List (CTree × Option ArgsObj) → Except JsError String
  | [] => .ok url
  | p :: rest =>
    match localLoc p with
    | .error e => .error e
    | .ok seg => mountRest (seg ++ "/" ++ url) rest

/-- The path portion of `mount` on a leaf-first chain: the branch's own
local location first, then the ancestor loop. -/
def mountChain : List (CTree × Option ArgsObj) → Except JsError String
  | [] => .error .typeError
  | p :: rest =>
    match localLoc p with
    | .error e => .error e
    | .ok url => mountRest url rest

/-! ## The query string -/

/-- Hexadecimal digit (upper case) for percent-encoding. -/
def hexDigit (n : Nat) : Char :=
  if n < 10 then Char.ofNat (48 + n) else Char.ofNat (55 + n)

/-- UTF-8 bytes of a code point, for percent-encoding. -/
def utf8Bytes (n : Nat) : List Nat :=
  if n < 0x80 then [n]
  else if n < 0x800 then [0xC0 + n / 0x40, 0x80 + n % 0x40]
  else if n < 0x10000 then
    [0xE0 + n / 0x1000, 0x80 + (n / 0x40) % 0x40, 0x80 + n % 0x40]
  else
    [0xF0 + n / 0x40000, 0x80 + (n / 0x1000) % 0x40, 0x80 + (n / 0x40) % 0x40, 0x80 + n % 0x40]

/-- Characters `encodeURIComponent` leaves unescaped. -/
def uriUnreserved (c : Char) : Bool :=
  isAlphaCh c || isDigitCh c || "-_.!~*()".contains c || c == apos.front

/-- The standard `encodeURIComponent` builtin: unreserved characters kept,
all others percent-encoded from their UTF-8 bytes. -/
def encodeURIComponent (s : String) : String :=
  (s.data.map (fun c =>
    if uriUnreserved c then String.singleton c
    else (((utf8Bytes c.toNat).map (fun b =>
      "%" ++ String.singleton (hexDigit (b / 16)) ++ String.singleton (hexDigit (b % 16)))).foldl
        (· ++ ·) ""))).foldl (· ++ ·) ""

/-- The `while (param = keys.shift())` loop of `mount` (RESTree.js lines
353-354): stops when `shift` yields `undefined` (empty list) or a falsy
key (the empty string); otherwise appends `&key=value` with the value
read from the params object and URI-encoded. -/
def queryWhile (url : String) (kvs : ArgsObj) : List String → String
  | [] => url
  | k :: rest =>
    if k == "" then url
    else queryWhile
      (url ++ "&" ++ k ++ "=" ++ encodeURIComponent (jsToString (objGet kvs k))) kvs rest

/-- The query portion of `mount` (RESTree.js lines 347-355): skipped
entirely when `urlParams` is absent (or any falsy value); otherwise the
first `keys.shift()` is consumed unconditionally — on an empty object it
yields `undefined`, producing the literal text `?undefined=` followed by
the encoding of the `undefined` property — and the remaining keys are
consumed by the guarded while loop. -/
def appendQuery (url : String) : Option ArgsObj → String
  | none => url
  | some kvs =>
    match kvs.map Prod.fst with
    | [] => url ++ "?undefined=" ++ encodeURIComponent (jsToString (objGet kvs "undefined"))
    | k :: rest =>
      queryWhile (url ++ "?" ++ k ++ "=" ++ encodeURIComponent (jsToString (objGet kvs k)))
        kvs rest

/-- `ExecNode.prototype.mount` (RESTree.js lines 339-358) on a branch:
resolve the leaf-first chain into the slash-joined path, then append the
query string built from `urlParams`. -/
def mountUrl (σ : ExecState) (bid : Nat) (urlParams : Option ArgsObj) : Except JsError String :=
  match mountChain (chain σ bid) with
  | .error e => .error e
  | .ok url => .ok (appendQuery url urlParams)

/-! ## Requests and the convenience shorthands -/

/-- The observable content of one issued `XMLHttpRequest` (RESTree.js
lines 369-387): method, mounted URL, the ordered `setRequestHeader`
calls, the value handed to the JSON codec as the body (serialisation
itself is the external codec), and the two callbacks wired into the load
listener. -/
structure XhrRequestR (α : Type) where
  method : Method
  url : String
  headerCalls : List (String × String)
  body : JsValue
  onSuccess : α
  onFail : α

/-- `ExecNode.prototype.request` (RESTree.js lines 369-387): mount the URL
(propagating its exceptions), run the outgoing pipeline for the method on
the body, and record the issued request.  `ancestry` is the node's
configuration ancestry (leaf first, as walked by `loadHeaders` from
`this.node` through `parent`). -/
def requestOp {α : Type} (σ : ExecState) (bid : Nat) (ancestry : List CNode)
    (m : Method) (query : Option ArgsObj) (data : JsValue) (success fail : α) :
    Except JsError (XhrRequestR α) :=
  match mountUrl σ bid query with
  | .error e => .error e
  | .ok url =>
    match σ.branches[bid]? with
    | none => .error .typeError
    | some b =>
      .ok { method := m
            url := url
            headerCalls := requestHeaderCalls ancestry
            body := executePipes (pipesLine b.tree.cfg m .out) data
            onSuccess := success
            onFail := fail }

/-- The argument object taken by the `get` shorthand. -/
structure Properties (α : Type) where
  query : Option ArgsObj
  body : JsValue
  success : α
  fail : α

/-- `ExecNode.prototype.get` (RESTree.js lines 426-428): delegates to
`request` with the method fixed to `get` and the caller's properties
passed through. -/
def execGet {α : Type} (σ : ExecState) (bid : Nat) (ancestry : List CNode)
    (properties : Properties α) : Except JsError (XhrRequestR α) :=
  requestOp σ bid ancestry .get properties.query properties.body properties.success properties.fail

/-- `ExecNode.prototype.post` (RESTree.js lines 431-433): its body reads
`properties.query`, but `properties` is not among its parameters
(`urlParams, data, success, fail`) and is unbound in every enclosing
scope, so the call throws a ReferenceError before `request` is reached. -/
def execPost {α : Type} (_σ : ExecState) (_bid : Nat) (_ancestry : List CNode)
    (_urlParams : Option ArgsObj) (_data : JsValue) (_success _fail : α) :
    Except JsError (XhrRequestR α) :=
  .error (.referenceError "properties is not defined")

/-- `ExecNode.prototype.put` (RESTree.js lines 436-438): same unbound
`properties` reference as `post`. -/
def execPut {α : Type} (_σ : ExecState) (_bid : Nat) (_ancestry : List CNode)
    (_urlParams : Option ArgsObj) (_data : JsValue) (_success _fail : α) :
    Except JsError (XhrRequestR α) :=
  .error (.referenceError "properties is not defined")

/-- `ExecNode.prototype.delete` (RESTree.js lines 441-443): same unbound
`properties` reference as `post`. -/
def execDelete {α : Type} (_σ : ExecState) (_bid : Nat) (_ancestry : List CNode)
    (_urlParams : Option ArgsObj) (_data : JsValue) (_success _fail : α) :
    Except JsError (XhrRequestR α) :=
  .error (.referenceError "properties is not defined")

/-! ## Derived notions used by the statements -/

/-- Slash-joined concatenation of path segments, in list order. -/
def joinPath : List String → String
  | [] => ""
  | [s] => s
  | s :: t :: rest => s ++ "/" ++ joinPath (t :: rest)

/-- Whether a result is the missing-parameter failure, i.e. a thrown
`Error` (the only `Error` mount can throw is the missing-property one of
`localLocation`); a TypeError or a success is not. -/
def isMissingParamError : Except JsError String → Bool
  | .error (.error _) => true
  | _ => false

/-! ## Concrete example configuration (the three-level tree of the
specification: root `api`, child `user` at `user/\x7bid\x7d`, grandchild
`images`) -/

/-- The `images` leaf. -/
def imagesTree : CTree := .mk (mkCNode "images") []

/-- The `user` endpoint with location template `user/\x7bid\x7d`. -/
def userTree : CTree := .mk (mkCNode "user/{id}") [("images", imagesTree)]

/-- The root, with `user` registered as its child. -/
def apiTree : CTree := .mk (mkCNode "api") [("user", userTree)]

/-- The compiled state: the root branch only. -/
def rootState : ExecState := compileInit apiTree

/-- The state after reading `root.user` once (one fresh user branch,
args still null). -/
def userBranchState : ExecState :=
  { tree := apiTree
    branches := [⟨apiTree, none, none⟩, ⟨userTree, some 0, none⟩] }

/-- The state after reading `root.user` twice (two independent user
branches). -/
def userBranchState2 : ExecState :=
  { tree := apiTree
    branches := [⟨apiTree, none, none⟩, ⟨userTree, some 0, none⟩, ⟨userTree, some 0, none⟩] }

/-- The state after `root.user({id: 5})`. -/
def userCalledState : ExecState :=
  { tree := apiTree
    branches := [⟨apiTree, none, none⟩,
                 ⟨userTree, some 0, some [("id", JsValue.num 5)]⟩] }

/-- The state after `root.user({id: 5}).images`. -/
def imagesBranchState : ExecState :=
  { tree := apiTree
    branches := [⟨apiTree, none, none⟩,
                 ⟨userTree, some 0, some [("id", JsValue.num 5)]⟩,
                 ⟨imagesTree, some 1, none⟩] }

/-- Invoking the callers of two branches in sequence, the first with
`args1`, the second with `args2`. -/
def twoCalls (σ : ExecState) (b1 b2 : Nat) (args1 args2 : ArgsObj) : ExecState :=
  callBranch (callBranch σ b1 (some args1)) b2 (some args2)

/-- A concrete transform tagging its input with "1" (for pipeline-order
witnesses). -/
def tagOne : JsValue → JsValue := fun v => .str (jsToString v ++ "1")

/-- A concrete transform tagging its input with "2". -/
def tagTwo : JsValue → JsValue := fun v => .str (jsToString v ++ "2")

/-- A root node carrying two default headers (for the header-inheritance
witness). -/
def rootHdr : CNode :=
  nodeHeader (nodeHeader (mkCNode "api") "X-Auth" "tok-root") "Other" "o"

/-- An intermediate node overriding one of the root's headers. -/
def midHdr : CNode := nodeHeader (mkCNode "mid") "X-Auth" "tok-mid"

/-- A leaf node with no headers of its own. -/
def leafHdr : CNode := mkCNode "leaf"

/-! # Theorems

First a layer of shared lemmas about the embedded operations, then one
theorem per claim (with its witness or counterexample). -/

/-- Unfold lemma for the fueled walk at a missing slot. -/
theorem chainGo_succ_none (σ : ExecState) (f bid : Nat)
    (hb : σ.branches[bid]? = none) : chainGo σ (f + 1) bid = [] := by
  simp only [chainGo, hb]

/-- Unfold lemma for the fueled walk at a present slot. -/
theorem chainGo_succ_some (σ : ExecState) (f bid : Nat) (b : BranchObj)
    (hb : σ.branches[bid]? = some b) :
    chainGo σ (f + 1) bid = (b.tree, b.args) :: chainNext (chainGo σ f) bid b.last := by
  simp only [chainGo, hb]

/-- The chain walk only reads heap slots at or below its start index, so
two states agreeing on those slots give the same chain. -/
theorem chainGo_congr (σ σ' : ExecState) :
    ∀ (fuel bid : Nat), (∀ k, k ≤ bid → σ'.branches[k]? = σ.branches[k]?) →
      chainGo σ' fuel bid = chainGo σ fuel bid := by
  intro fuel
  induction fuel with
  | zero => intro bid _; rfl
  | succ f ih =>
    intro bid h
    have hb' : σ'.branches[bid]? = σ.branches[bid]? := h bid (Nat.le_refl bid)
    cases hb : σ.branches[bid]? with
    | none => rw [chainGo_succ_none σ' f bid (hb' ▸ hb), chainGo_succ_none σ f bid hb]
    | some b =>
      rw [chainGo_succ_some σ' f bid b (hb' ▸ hb), chainGo_succ_some σ f bid b hb]
      cases hl : b.last with
      | none => rfl
      | some j =>
        simp only [chainNext]
        by_cases hj : j < bid
        · simp only [hj, if_true]
          exact congrArg _ (ih j (fun k hk => h k (Nat.le_trans hk (Nat.le_of_lt hj))))
        · simp only [hj, if_false]

/-- The chain walk is independent of the fuel once the fuel exceeds the
start index (the walk strictly descends). -/
theorem chainGo_fuel (σ : ExecState) :
    ∀ (f : Nat) (bid f' : Nat), bid < f → bid < f' →
      chainGo σ f bid = chainGo σ f' bid := by
  intro f
  induction f with
  | zero => intro bid f' h _; exact absurd h (Nat.not_lt_zero bid)
  | succ f0 ih =>
    intro bid f' h h'
    obtain ⟨f1, rfl⟩ : ∃ f1, f' = f1 + 1 := ⟨f' - 1, by omega⟩
    cases hb : σ.branches[bid]? with
    | none => rw [chainGo_succ_none σ f0 bid hb, chainGo_succ_none σ f1 bid hb]
    | some b =>
      rw [chainGo_succ_some σ f0 bid b hb, chainGo_succ_some σ f1 bid b hb]
      cases hl : b.last with
      | none => rfl
      | some j =>
        simp only [chainNext]
        by_cases hj : j < bid
        · simp only [hj, if_true]
          exact congrArg _ (ih j f1 (by omega) (by omega))
        · simp only [hj, if_false]

/-- States agreeing below the start index give the same chain. -/
theorem chain_congr (σ σ' : ExecState) (bid : Nat)
    (h : ∀ k, k ≤ bid → σ'.branches[k]? = σ.branches[k]?) :
    chain σ' bid = chain σ bid :=
  chainGo_congr σ σ' (bid + 1) bid h

/-- Unfolding the chain one step at a branch with a predecessor. -/
theorem chain_cons (σ : ExecState) (bid j : Nat) (b : BranchObj)
    (hb : σ.branches[bid]? = some b) (hl : b.last = some j) (hj : j < bid) :
    chain σ bid = (b.tree, b.args) :: chain σ j := by
  show chainGo σ (bid + 1) bid = _
  simp only [chainGo, hb, hl, chainNext, hj, if_true]
  rw [chainGo_fuel σ bid j (j + 1) hj (Nat.lt_succ_self j)]
  rfl

/-- The chain of a branch with no predecessor is that branch alone. -/
theorem chain_single (σ : ExecState) (bid : Nat) (b : BranchObj)
    (hb : σ.branches[bid]? = some b) (hl : b.last = none) :
    chain σ bid = [(b.tree, b.args)] := by
  show chainGo σ (bid + 1) bid = _
  simp only [chainGo, hb, hl, chainNext]

/-- `mount` with no `urlParams` is the path portion alone. -/
theorem mountUrl_none (σ : ExecState) (bid : Nat) :
    mountUrl σ bid none = mountChain (chain σ bid) := by
  unfold mountUrl
  cases mountChain (chain σ bid) <;> rfl

/-- Joining with a pre-slashed last segment is joining with the two
segments. -/
theorem joinPath_slash : ∀ (l : List String) (s u : String),
    joinPath (l ++ [s ++ "/" ++ u]) = joinPath (l ++ [s, u]) := by
  intro l
  induction l with
  | nil => intro s u; rfl
  | cons a l ih =>
    intro s u
    cases l with
    | nil =>
      show a ++ "/" ++ joinPath [s ++ "/" ++ u] = a ++ "/" ++ joinPath [s, u]
      exact congrArg (fun z => a ++ "/" ++ z) (ih s u)
    | cons b l' =>
      show a ++ "/" ++ joinPath ((b :: l') ++ [s ++ "/" ++ u]) =
        a ++ "/" ++ joinPath ((b :: l') ++ [s, u])
      exact congrArg (fun z => a ++ "/" ++ z) (ih s u)

/-- The ancestor loop of `mount`, on a fully resolving chain, joins the
resolved segments (reversed, i.e. root first) onto the accumulated URL. -/
theorem mountRest_ok :
    ∀ (items : List (CTree × Option ArgsObj)) (segs : List String) (url : String),
      items.map localLoc = segs.map Except.ok →
      mountRest url items = .ok (joinPath (segs.reverse ++ [url])) := by
  intro items
  induction items with
  | nil =>
    intro segs url h
    cases segs with
    | nil => simp [mountRest, joinPath]
    | cons s ss => simp at h
  | cons p rest ih =>
    intro segs url h
    cases segs with
    | nil => simp at h
    | cons s ss =>
      simp only [List.map_cons, List.cons.injEq] at h
      obtain ⟨hp, hrest⟩ := h
      simp only [mountRest, hp]
      rw [ih ss (s ++ "/" ++ url) hrest]
      rw [List.reverse_cons, List.append_assoc]
      rw [joinPath_slash ss.reverse s url]
      rfl

/-- When a parameter is recorded and the data object is null or undefined,
`localLocation` throws a TypeError (`data.hasOwnProperty` on null). -/
theorem localLocation_null (loc : String) (ps : List String) (hps : ps ≠ []) :
    localLocation loc ps none = .error .typeError := by
  cases ps with
  | nil => exact absurd rfl hps
  | cons p ps' => rfl

/-- Transport lookup after setting a different key is unchanged. -/
theorem lookup_xhrSetHeader_ne (hs : List (String × String)) (k k' v : String)
    (h : k' ≠ k) : List.lookup k (xhrSetHeader hs k' v) = List.lookup k hs := by
  have hkk : (k == k') = false := beq_eq_false_iff_ne.mpr (Ne.symm h)
  induction hs with
  | nil =>
    show List.lookup k [(k', v)] = none
    simp [List.lookup, hkk]
  | cons p hs ih =>
    obtain ⟨a, b⟩ := p
    by_cases hp : a = k'
    · subst hp
      have hstep : xhrSetHeader ((a, b) :: hs) a v = xhrSetHeader hs a v := by
        simp [xhrSetHeader, List.filter_cons]
      rw [hstep, ih]
      simp [List.lookup, hkk]
    · have hstep : xhrSetHeader ((a, b) :: hs) k' v = (a, b) :: xhrSetHeader hs k' v := by
        simp [xhrSetHeader, List.filter_cons, hp]
      rw [hstep]
      by_cases hak : k = a
      · simp [List.lookup, hak]
      · have hka : (k == a) = false := beq_eq_false_iff_ne.mpr hak
        simp only [List.lookup, hka]
        exact ih

/-- Lookup at the end of a list whose earlier keys all differ. -/
theorem lookup_append_keyFree (k v : String) :
    ∀ (l : List (String × String)), (∀ p ∈ l, p.1 ≠ k) →
      List.lookup k (l ++ [(k, v)]) = some v := by
  intro l
  induction l with
  | nil => simp [List.lookup]
  | cons p rest ih =>
    intro h
    obtain ⟨a, b⟩ := p
    have ha : a ≠ k := h (a, b) (List.mem_cons_self _ _)
    have hka : (k == a) = false := beq_eq_false_iff_ne.mpr (Ne.symm ha)
    show List.lookup k ((a, b) :: (rest ++ [(k, v)])) = some v
    simp only [List.lookup, hka]
    exact ih (fun q hq => h q (List.mem_cons_of_mem _ hq))

/-- Transport lookup after setting a key finds that key's value. -/
theorem lookup_xhrSetHeader_self (hs : List (String × String)) (k v : String) :
    List.lookup k (xhrSetHeader hs k v) = some v := by
  apply lookup_append_keyFree
  intro p hp
  have := List.of_mem_filter hp
  simpa using this

/-- A call sequence free of a key leaves that key's transport value
unchanged. -/
theorem lookup_xhrLoad_keyFree (k : String) :
    ∀ (calls : List (String × String)) (hs : List (String × String)),
      keyFree calls k →
      List.lookup k (xhrLoad hs calls) = List.lookup k hs := by
  intro calls
  induction calls with
  | nil => intro hs _; rfl
  | cons c cs ih =>
    intro hs h
    have hc : c.1 ≠ k := h c (List.mem_cons_self _ _)
    show List.lookup k (xhrLoad (xhrSetHeader hs c.1 c.2) cs) = _
    rw [ih _ (fun p hp => h p (List.mem_cons_of_mem _ hp))]
    exact lookup_xhrSetHeader_ne hs k c.1 c.2 hc

/-- The transport value of a key after a call sequence is its last set
value: any prefix is overwritten, and the key-free suffix cannot touch
it. -/
theorem lookup_xhrLoad_last (hs pre post : List (String × String)) (k v : String)
    (h : keyFree post k) :
    List.lookup k (xhrLoad hs (pre ++ (k, v) :: post)) = some v := by
  show List.lookup k (List.foldl _ hs (pre ++ (k, v) :: post)) = some v
  rw [List.foldl_append]
  show List.lookup k (xhrLoad (xhrSetHeader (xhrLoad hs pre) k v) post) = some v
  rw [lookup_xhrLoad_keyFree k post _ h]
  exact lookup_xhrSetHeader_self _ k v

/-- A membership in a list with nodup keys splits it around that binding,
with the suffix free of the key. -/
theorem mem_nodup_split (l : List (String × String)) (k v : String)
    (hm : (k, v) ∈ l) (hn : (l.map Prod.fst).Nodup) :
    ∃ pre post, l = pre ++ (k, v) :: post ∧ keyFree post k := by
  obtain ⟨pre, post, rfl⟩ := List.append_of_mem hm
  refine ⟨pre, post, rfl, ?_⟩
  intro p hp hpk
  have hmap : (pre.map Prod.fst ++ k :: post.map Prod.fst).Nodup := by
    simpa using hn
  have hknot : k ∉ post.map Prod.fst := by
    have := (List.Nodup.of_append_right hmap)
    rw [List.nodup_cons] at this
    exact this.1
  exact hknot (by exact hpk ▸ List.mem_map_of_mem Prod.fst hp)

/-- Reading back the slot an in-range `set` wrote. -/
theorem getElem?_set_self_of_lt (l : List BranchObj) (i : Nat) (x : BranchObj)
    (h : i < l.length) : (l.set i x)[i]? = some x := by
  simp [List.getElem?_set_self', h]

/-! ## Claim C1 -/

/-- Claim C1: for a template with two distinct placeholders and both keys
supplied, `localLocation` should substitute each placeholder with its own
value.  The code instead replaces, at the first loop iteration, EVERY
placeholder occurrence with the first parameter's value, because the
`replace` call uses the global any-placeholder regex: on template
`\x7ba\x7d/\x7bb\x7d` with data mapping a to x and b to y, both recorded
parameters are found, no error is raised, and the result is `x/x` — not
the `x/y` the claim requires. -/
theorem c1_localLocation_global_replace :
    extractParams "{a}/{b}" = ["a", "b"] ∧
    localLocation "{a}/{b}" (extractParams "{a}/{b}")
      (some [("a", JsValue.str "x"), ("b", JsValue.str "y")]) = .ok "x/x" ∧
    (Except.ok "x/x" : Except JsError String) ≠ .ok "x/y" := by
  refine ⟨rfl, rfl, ?_⟩
  intro h
  have h' : ("x/x" : String) = "x/y" := Except.ok.inj h
  exact absurd h' (by decide)

/-! ## Claim C9 -/

/-- Claim C9: `add` rejects any name that is an own property of the node
object, not only previously added children — in particular the six field
names assigned by the constructor (`location`, `parent`, `nodes`,
`params`, `headers`, `pipes`) are rejected with the duplicate-name error
even on a freshly constructed node. -/
theorem c9_add_own_property :
    (∀ (n : NodeObj) (name : String), name ∈ n.ownKeys →
       n.add name = .error (.error (dupNameMsg name n.location))) ∧
    (∀ (loc name : String), name ∈ ctorKeys →
       (mkNodeObj loc).add name = .error (.error (dupNameMsg name loc))) := by
  constructor
  · intro n name h
    simp [NodeObj.add, h]
  · intro loc name h
    simp [NodeObj.add, mkNodeObj, h]

/-- Witness for C9: `pipes` is a constructor key, and adding it to a fresh
node fails with the duplicate-name error. -/
theorem c9_add_own_property_witness :
    ("pipes" ∈ ctorKeys) ∧
    (mkNodeObj "api").add "pipes" = .error (.error (dupNameMsg "pipes" "api")) :=
  ⟨by decide, c9_add_own_property.2 "api" "pipes" (by decide)⟩

/-! ## Claim C6 -/

/-- Claim C6: transforms registered for a method and direction are kept in
registration order (registering T1 then T2 yields the pipeline [T1, T2]),
execution applies them in that order, each consuming the previous output,
and a falsy (empty or absent) input yields `undefined` under every
pipeline — in particular without consulting the registered transforms. -/
theorem c6_pipeline_order :
    ∀ (loc : String) (m : Method) (T1 T2 : JsValue → JsValue) (d : JsValue)
      (ps : List (JsValue → JsValue)),
      pipesLine (nodePipe (nodePipe (mkCNode loc) m .inn [T1]) m .inn [T2]) m .inn
        = [T1, T2] ∧
      (falsy d = false → executePipes [T1, T2] d = T2 (T1 d)) ∧
      (falsy d = true → executePipes ps d = .undefined) := by
  intro loc m T1 T2 d ps
  refine ⟨?_, ?_, ?_⟩
  · cases m <;>
      simp [pipesLine, nodePipe, mkCNode, emptyPipes, Pipes.update, Pipes.line, LinePipes.dir]
  · intro h
    simp [executePipes, h]
  · intro h
    simp [executePipes, h]

/-- Witness for C6 at the `get` incoming pipeline with two concrete
tagging transforms: the registered line is [tagOne, tagTwo], a truthy
input is tagged "1" then "2", and the empty string input short-circuits
to `undefined`. -/
theorem c6_pipeline_order_witness :
    pipesLine (nodePipe (nodePipe (mkCNode "api") .get .inn [tagOne]) .get .inn [tagTwo])
      .get .inn = [tagOne, tagTwo] ∧
    executePipes [tagOne, tagTwo] (.str "a") = .str "a12" ∧
    executePipes [tagOne, tagTwo] (.str "") = .undefined := by
  refine ⟨(c6_pipeline_order "api" .get tagOne tagTwo (.str "a") []).1, ?_, ?_⟩
  · exact ((c6_pipeline_order "api" .get tagOne tagTwo (.str "a") []).2.1 rfl).trans rfl
  · exact (c6_pipeline_order "api" .get tagOne tagTwo (.str "") [tagOne, tagTwo]).2.2 rfl

/-! ## Claim C7 -/

/-- Claim C7: a response with a non-2xx status invokes only the failure
callback, with the status and the raw parsed body — the incoming pipeline
is not applied (the result is the same for every node, whatever its
pipelines) — while a 2xx status applies the method's incoming pipeline
and invokes the success callback on the transformed data. -/
theorem c7_response_dispatch :
    ∀ (nd : CNode) (m : Method) (data : JsValue) (status : Nat),
      (¬(200 ≤ status ∧ status < 300) →
        handleResponse nd m data status true true = .failCall status data) ∧
      ((200 ≤ status ∧ status < 300) →
        handleResponse nd m data status true true =
          .successCall status (executePipes (pipesLine nd m .inn) data)) := by
  intro nd m data status
  constructor
  · intro h
    simp [handleResponse, h]
  · intro h
    simp [handleResponse, h]

/-- Witness for C7 at statuses 404 and 200. -/
theorem c7_response_dispatch_witness :
    handleResponse (mkCNode "api") .get (.str "oops") 404 true true =
      .failCall 404 (.str "oops") ∧
    handleResponse (mkCNode "api") .get (.str "yay") 200 true true =
      .successCall 200 (executePipes (pipesLine (mkCNode "api") .get .inn) (.str "yay")) :=
  ⟨(c7_response_dispatch (mkCNode "api") .get (.str "oops") 404).1 (by omega),
   (c7_response_dispatch (mkCNode "api") .get (.str "yay") 200).2 (by omega)⟩

/-! ## Claim C10 -/

/-- Claim C10: with an empty-but-present query object, `mount` enters the
query-building step with no keys: the unconditional first `shift` yields
`undefined`, so the literal text `?undefined=undefined` is appended to
the resolved path — the bare path is not returned. -/
theorem c10_mount_empty_query (σ : ExecState) (bid : Nat) (url : String)
    (h : mountChain (chain σ bid) = .ok url) :
    mountUrl σ bid (some []) = .ok (url ++ "?undefined=undefined") ∧
    url ++ "?undefined=undefined" ≠ url := by
  constructor
  · unfold mountUrl
    rw [h]
    show (Except.ok (appendQuery url (some [])) : Except JsError String) =
      Except.ok (url ++ "?undefined=undefined")
    have h1 : appendQuery url (some []) =
        (url ++ "?undefined=") ++ encodeURIComponent (jsToString (objGet [] "undefined")) :=
      rfl
    have h2 : encodeURIComponent (jsToString (objGet ([] : ArgsObj) "undefined")) =
        "undefined" := rfl
    rw [h1, h2, String.append_assoc]
    have h3 : ("?undefined=" ++ "undefined" : String) = "?undefined=undefined" := by decide
    rw [h3]
  · intro hurl
    have hlen := congrArg String.length hurl
    rw [String.length_append] at hlen
    have h20 : ("?undefined=undefined" : String).length = 20 := rfl
    omega

/-- Witness for C10 on the branch `root.user({id: 5})`, whose path
resolves to `api/user/5`. -/
theorem c10_mount_empty_query_witness :
    mountUrl userCalledState 1 (some []) = .ok "api/user/5?undefined=undefined" ∧
    ("api/user/5?undefined=undefined" : String) ≠ "api/user/5" := by
  have h := c10_mount_empty_query userCalledState 1 "api/user/5" rfl
  exact ⟨h.1.trans rfl, h.2⟩

/-! ## Claim C4 -/

/-- The ancestor loop of `mount` propagates the TypeError of the first
null-args parameterised ancestor, provided the ancestors below it
resolve. -/
theorem mountRest_err (t : CTree) (rest : List (CTree × Option ArgsObj))
    (ht : localLoc (t, (none : Option ArgsObj)) = .error .typeError) :
    ∀ (pre : List (CTree × Option ArgsObj)) (url : String),
      (∀ p ∈ pre, ∃ s, localLoc p = .ok s) →
      mountRest url (pre ++ (t, (none : Option ArgsObj)) :: rest) = .error .typeError := by
  intro pre
  induction pre with
  | nil =>
    intro url _
    simp only [List.nil_append, mountRest, ht]
  | cons q pre' ih =>
    intro url h
    obtain ⟨s, hq⟩ := h q (List.mem_cons_self _ _)
    simp only [List.cons_append, mountRest, hq]
    exact ih _ (fun p hp => h p (List.mem_cons_of_mem _ hp))

/-- Claim C4, corrected: when some ancestor in the chain carries template
parameters but its caller was never given an argument object (`args` is
null or undefined) and every ancestor below it resolves, `mount` fails —
but with a TypeError from `data.hasOwnProperty` on null, not with the
MissingParameterError the claim names (that error requires an argument
object lacking the key). -/
theorem c4_mount_null_args_type_error (σ : ExecState) (bid : Nat)
    (pre : List (CTree × Option ArgsObj)) (t : CTree)
    (rest : List (CTree × Option ArgsObj))
    (hchain : chain σ bid = pre ++ (t, (none : Option ArgsObj)) :: rest)
    (hpre : ∀ p ∈ pre, ∃ s, localLoc p = .ok s)
    (hparams : t.cfg.params ≠ []) :
    mountUrl σ bid none = .error .typeError := by
  rw [mountUrl_none, hchain]
  have ht : localLoc (t, (none : Option ArgsObj)) = .error .typeError :=
    localLocation_null t.cfg.location t.cfg.params hparams
  cases pre with
  | nil =>
    simp only [List.nil_append, mountChain, ht]
  | cons q pre' =>
    obtain ⟨s, hq⟩ := hpre q (List.mem_cons_self _ _)
    simp only [List.cons_append, mountChain, hq]
    exact mountRest_err t rest ht pre' s (fun p hp => hpre p (List.mem_cons_of_mem _ hp))

/-- Counterexample for C4 as stated: the API-reachable scenario
`root.user` accessed and its caller invoked with no argument
(`root.user().mount()` in the source) produces exactly the modelled state,
and `mount` fails with a TypeError, which is not the missing-parameter
`Error` the claim requires. -/
theorem c4_counterexample :
    childAccess rootState 0 "user" = some (1, userBranchState) ∧
    callBranch userBranchState 1 none = userBranchState ∧
    mountUrl userBranchState 1 none = .error .typeError ∧
    isMissingParamError (mountUrl userBranchState 1 none) = false :=
  ⟨rfl, rfl, rfl, rfl⟩

/-- Witness for the corrected C4 on the concrete never-supplied `user`
branch. -/
theorem c4_mount_null_args_type_error_witness :
    mountUrl userBranchState 1 none = .error .typeError := by
  exact c4_mount_null_args_type_error userBranchState 1 [] userTree [(apiTree, none)]
    rfl (fun p hp => absurd hp (List.not_mem_nil p)) (by decide)

/-! ## Claim C5 -/

/-- Claim C5: when every element of the branch's chain resolves, `mount`
(with no query) returns the resolved local paths joined with `/` in
root-first order (the chain is collected leaf first, so the segments are
reversed). -/
theorem c5_mount_root_first (σ : ExecState) (bid : Nat) (segs : List String)
    (hne : segs ≠ [])
    (h : (chain σ bid).map localLoc = segs.map Except.ok) :
    mountUrl σ bid none = .ok (joinPath segs.reverse) := by
  rw [mountUrl_none]
  cases hc : chain σ bid with
  | nil =>
    rw [hc] at h
    cases segs with
    | nil => exact absurd rfl hne
    | cons s ss => simp at h
  | cons item rest =>
    rw [hc] at h
    cases segs with
    | nil => simp at h
    | cons s ss =>
      simp only [List.map_cons, List.cons.injEq] at h
      obtain ⟨hitem, hrest⟩ := h
      simp only [mountChain, hitem]
      rw [mountRest_ok rest ss s hrest]
      rw [List.reverse_cons]

/-- Witness for C5: the specification's example — root `api`, child
`user/\x7bid\x7d` with id 5, grandchild `images` — mounts to
`api/user/5/images`. -/
theorem c5_mount_root_first_witness :
    mountUrl imagesBranchState 2 none = .ok "api/user/5/images" := by
  have h := c5_mount_root_first imagesBranchState 2 ["images", "user/5", "api"]
    (by decide) rfl
  exact h.trans rfl

/-! ## Claim C8 -/

/-- Claim C8: the header calls a request performs are the accumulation of
the ancestry's headers in root-to-leaf order; consequently, on a
one-value-per-name transport, a header set on the root reaches a request
from a doubly nested descendant branch unless an intermediate ancestor
sets the same name (applied later, its value takes effect instead). -/
theorem c8_header_inheritance (root mid leaf : CNode) (k v v' : String) :
    loadHeaders [leaf, mid, root] = root.headers ++ mid.headers ++ leaf.headers ∧
    ((k, v) ∈ root.headers → (root.headers.map Prod.fst).Nodup →
      keyFree mid.headers k → keyFree leaf.headers k →
      List.lookup k (xhrLoad [] (requestHeaderCalls [leaf, mid, root])) = some v) ∧
    ((k, v') ∈ mid.headers → (mid.headers.map Prod.fst).Nodup →
      keyFree leaf.headers k →
      List.lookup k (xhrLoad [] (requestHeaderCalls [leaf, mid, root])) = some v') := by
  refine ⟨?_, ?_, ?_⟩
  · simp [loadHeaders, List.append_assoc]
  · intro hm hn hmid hleaf
    obtain ⟨pre, post, hsplit, hpost⟩ := mem_nodup_split root.headers k v hm hn
    have hcalls : requestHeaderCalls [leaf, mid, root] =
        (("Content-type", "application/json") :: pre) ++ (k, v) ::
          (post ++ (mid.headers ++ (leaf.headers ++ []))) := by
      simp [requestHeaderCalls, loadHeaders, hsplit, List.append_assoc]
    rw [hcalls]
    apply lookup_xhrLoad_last
    intro p hp
    rcases List.mem_append.mp hp with h1 | h2
    · exact hpost p h1
    · rcases List.mem_append.mp h2 with h3 | h4
      · exact hmid p h3
      · rcases List.mem_append.mp h4 with h5 | h6
        · exact hleaf p h5
        · exact absurd h6 (List.not_mem_nil p)
  · intro hm hn hleaf
    obtain ⟨pre, post, hsplit, hpost⟩ := mem_nodup_split mid.headers k v' hm hn
    have hcalls : requestHeaderCalls [leaf, mid, root] =
        (("Content-type", "application/json") :: (root.headers ++ pre)) ++ (k, v') ::
          (post ++ (leaf.headers ++ [])) := by
      simp [requestHeaderCalls, loadHeaders, hsplit, List.append_assoc]
    rw [hcalls]
    apply lookup_xhrLoad_last
    intro p hp
    rcases List.mem_append.mp hp with h1 | h2
    · exact hpost p h1
    · rcases List.mem_append.mp h2 with h3 | h4
      · exact hleaf p h3
      · exact absurd h4 (List.not_mem_nil p)

/-- Witness for C8: the root's `Other` header survives to the doubly
nested leaf untouched, while the root's `X-Auth` header is displaced by
the intermediate ancestor's value. -/
theorem c8_header_inheritance_witness :
    List.lookup "Other" (xhrLoad [] (requestHeaderCalls [leafHdr, midHdr, rootHdr])) =
      some "o" ∧
    List.lookup "X-Auth" (xhrLoad [] (requestHeaderCalls [leafHdr, midHdr, rootHdr])) =
      some "tok-mid" :=
  ⟨(c8_header_inheritance rootHdr midHdr leafHdr "Other" "o" "o").2.1
      (by decide) (by decide) (by unfold keyFree; decide) (by unfold keyFree; decide),
   (c8_header_inheritance rootHdr midHdr leafHdr "X-Auth" "tok-root" "tok-mid").2.2
      (by decide) (by decide) (by unfold keyFree; decide)⟩

/-! ## Claim C3 -/

/-- Claim C3: the `get` shorthand is extensionally `request` with the
method fixed to `get` and the caller's query, body, success and failure
arguments passed through.  The `post`, `put` and `delete` shorthands are
not: their bodies read the unbound identifier `properties`, so each call
throws a ReferenceError before `request` runs — shown at a concrete input
where `request` itself succeeds. -/
theorem c3_sugar_methods :
    (∀ (α : Type) (σ : ExecState) (bid : Nat) (anc : List CNode) (p : Properties α),
       execGet σ bid anc p =
         requestOp σ bid anc .get p.query p.body p.success p.fail) ∧
    execPost rootState 0 [mkCNode "api"] none JsValue.null (0 : Nat) 0 =
      .error (.referenceError "properties is not defined") ∧
    execPut rootState 0 [mkCNode "api"] none JsValue.null (0 : Nat) 0 =
      .error (.referenceError "properties is not defined") ∧
    execDelete rootState 0 [mkCNode "api"] none JsValue.null (0 : Nat) 0 =
      .error (.referenceError "properties is not defined") ∧
    requestOp rootState 0 [mkCNode "api"] .post none JsValue.null (0 : Nat) 0 =
      .ok { method := .post, url := "api",
            headerCalls := [("Content-type", "application/json")],
            body := .undefined, onSuccess := 0, onFail := 0 } :=
  ⟨fun _ _ _ _ _ => rfl, rfl, rfl, rfl, rfl⟩

/-! ## Claim C2 -/

/-- Claim C2: two accesses of the same declared child name on a branch
allocate two distinct fresh branch objects; invoking their callers with
`args1` and `args2` stores the mappings in those two objects only — the
compiled tree and every previously allocated branch (in particular the
parent branch) are untouched — and the two branches' chains, hence their
mounted URLs, carry exactly their own argument mapping over the shared
ancestor chain, never mixing. -/
theorem c2_branch_no_contamination
    (σ0 : ExecState) (rootBid : Nat) (b : BranchObj) (n : String) (ct : CTree)
    (b1 b2 : Nat) (σ1 σ2 : ExecState) (args1 args2 : ArgsObj)
    (hroot : σ0.branches[rootBid]? = some b)
    (hchild : lookupChild b.tree n = some ct)
    (_hparams : ct.cfg.params ≠ [])
    (h1 : childAccess σ0 rootBid n = some (b1, σ1))
    (h2 : childAccess σ1 rootBid n = some (b2, σ2)) :
    b1 ≠ b2 ∧
    (twoCalls σ2 b1 b2 args1 args2).tree = σ0.tree ∧
    (twoCalls σ2 b1 b2 args1 args2).branches[b1]? = some ⟨ct, some rootBid, some args1⟩ ∧
    (twoCalls σ2 b1 b2 args1 args2).branches[b2]? = some ⟨ct, some rootBid, some args2⟩ ∧
    (∀ k, k < σ0.branches.length →
      (twoCalls σ2 b1 b2 args1 args2).branches[k]? = σ0.branches[k]?) ∧
    chain (twoCalls σ2 b1 b2 args1 args2) b1 = (ct, some args1) :: chain σ0 rootBid ∧
    chain (twoCalls σ2 b1 b2 args1 args2) b2 = (ct, some args2) :: chain σ0 rootBid ∧
    mountUrl (twoCalls σ2 b1 b2 args1 args2) b1 none =
      mountChain ((ct, some args1) :: chain σ0 rootBid) ∧
    mountUrl (twoCalls σ2 b1 b2 args1 args2) b2 none =
      mountChain ((ct, some args2) :: chain σ0 rootBid) := by
  have hlen : rootBid < σ0.branches.length := (List.getElem?_eq_some.mp hroot).1
  simp only [childAccess, hroot, hchild, Option.some.injEq, Prod.mk.injEq] at h1
  obtain ⟨hb1, hσ1⟩ := h1
  have hσ1b : σ1.branches = σ0.branches ++ [⟨ct, some rootBid, none⟩] := by
    rw [← hσ1]
  have hσ1t : σ1.tree = σ0.tree := by
    rw [← hσ1]
  have hroot1 : σ1.branches[rootBid]? = some b := by
    rw [hσ1b, List.getElem?_append_left hlen]
    exact hroot
  simp only [childAccess, hroot1, hchild, Option.some.injEq, Prod.mk.injEq] at h2
  obtain ⟨hb2, hσ2⟩ := h2
  have hσ2b : σ2.branches = σ1.branches ++ [⟨ct, some rootBid, none⟩] := by
    rw [← hσ2]
  have hσ2t : σ2.tree = σ1.tree := by
    rw [← hσ2]
  have hlen1 : σ1.branches.length = σ0.branches.length + 1 := by
    rw [hσ1b]
    simp
  have hb1v : b1 = σ0.branches.length := hb1.symm
  have hb2v : b2 = σ0.branches.length + 1 := by
    rw [← hb2, hlen1]
  have hne : b1 ≠ b2 := by omega
  have hσ2len : σ2.branches.length = σ0.branches.length + 2 := by
    rw [hσ2b]
    simp [hlen1]
  have hget2b1 : σ2.branches[b1]? = some ⟨ct, some rootBid, none⟩ := by
    rw [hσ2b, List.getElem?_append_left (by omega : b1 < σ1.branches.length), hσ1b, hb1v]
    exact List.getElem?_concat_length _ _
  have hget2b2 : σ2.branches[b2]? = some ⟨ct, some rootBid, none⟩ := by
    rw [hσ2b, hb2v, ← hlen1]
    exact List.getElem?_concat_length _ _
  have hset2 : (σ2.branches.set b1 ⟨ct, some rootBid, some args1⟩)[b2]? =
      some ⟨ct, some rootBid, none⟩ := by
    rw [List.getElem?_set_ne hne]
    exact hget2b2
  have hσf : twoCalls σ2 b1 b2 args1 args2 =
      { σ2 with branches :=
          ((σ2.branches.set b1 ⟨ct, some rootBid, some args1⟩).set b2 ⟨ct, some rootBid, some args2⟩) } := by
    simp only [twoCalls, callBranch, hget2b1, hset2]
  have htree : (twoCalls σ2 b1 b2 args1 args2).tree = σ0.tree := by
    rw [hσf]
    show σ2.tree = σ0.tree
    rw [hσ2t, hσ1t]
  have hfb1 : (twoCalls σ2 b1 b2 args1 args2).branches[b1]? =
      some ⟨ct, some rootBid, some args1⟩ := by
    rw [hσf]
    show ((σ2.branches.set b1 _).set b2 _)[b1]? = _
    rw [List.getElem?_set_ne (Ne.symm hne)]
    exact getElem?_set_self_of_lt _ _ _ (by omega)
  have hfb2 : (twoCalls σ2 b1 b2 args1 args2).branches[b2]? =
      some ⟨ct, some rootBid, some args2⟩ := by
    rw [hσf]
    show ((σ2.branches.set b1 _).set b2 _)[b2]? = _
    exact getElem?_set_self_of_lt _ _ _ (by rw [List.length_set]; omega)
  have hframe : ∀ k, k < σ0.branches.length →
      (twoCalls σ2 b1 b2 args1 args2).branches[k]? = σ0.branches[k]? := by
    intro k hk
    rw [hσf]
    show ((σ2.branches.set b1 _).set b2 _)[k]? = _
    rw [List.getElem?_set_ne (by omega : b2 ≠ k), List.getElem?_set_ne (by omega : b1 ≠ k)]
    rw [hσ2b, List.getElem?_append_left (by omega : k < σ1.branches.length), hσ1b,
      List.getElem?_append_left (by omega : k < σ0.branches.length)]
  have hchain0 : chain (twoCalls σ2 b1 b2 args1 args2) rootBid = chain σ0 rootBid :=
    chain_congr σ0 (twoCalls σ2 b1 b2 args1 args2) rootBid
      (fun k hk => hframe k (by omega))
  have hchain1 : chain (twoCalls σ2 b1 b2 args1 args2) b1 =
      (ct, some args1) :: chain σ0 rootBid := by
    rw [chain_cons (twoCalls σ2 b1 b2 args1 args2) b1 rootBid
      ⟨ct, some rootBid, some args1⟩ hfb1 rfl (by omega), hchain0]
  have hchain2 : chain (twoCalls σ2 b1 b2 args1 args2) b2 =
      (ct, some args2) :: chain σ0 rootBid := by
    rw [chain_cons (twoCalls σ2 b1 b2 args1 args2) b2 rootBid
      ⟨ct, some rootBid, some args2⟩ hfb2 rfl (by omega), hchain0]
  refine ⟨hne, htree, hfb1, hfb2, hframe, hchain1, hchain2, ?_, ?_⟩
  · rw [mountUrl_none, hchain1]
  · rw [mountUrl_none, hchain2]

/-- Witness for C2 on the concrete tree: two accesses of `root.user`,
called with id 1 and id 2 respectively, are distinct branches mounting to
`api/user/1` and `api/user/2`. -/
theorem c2_branch_no_contamination_witness :
    (1 : Nat) ≠ 2 ∧
    mountUrl (twoCalls userBranchState2 1 2 [("id", JsValue.num 1)]
      [("id", JsValue.num 2)]) 1 none = .ok "api/user/1" ∧
    mountUrl (twoCalls userBranchState2 1 2 [("id", JsValue.num 1)]
      [("id", JsValue.num 2)]) 2 none = .ok "api/user/2" := by
  have h := c2_branch_no_contamination rootState 0 ⟨apiTree, none, none⟩ "user" userTree
    1 2 userBranchState userBranchState2 [("id", JsValue.num 1)] [("id", JsValue.num 2)]
    rfl rfl (by decide) rfl rfl
  exact ⟨h.1, h.2.2.2.2.2.2.2.1.trans rfl, h.2.2.2.2.2.2.2.2.trans rfl⟩

end RESTree
